import Mathlib

/-!
Verification of the protocol dispatch core of the `mcp-server-store` Go
repository: the JSON-RPC 2.0 wire types and stdio transport loop
(`internal/jsonrpc`), and the MCP capability registry (`internal/mcp`).

The Go code is shallowly embedded: structs become structures, Go maps become
association lists with Go-map insert/lookup semantics (`mapInsert`,
`mapLookup`), `interface{}` values holding JSON data become the `Json`
inductive, fallible operations return `Option`, and the stateful stdio loop
becomes a function from a list of input lines to the list of written
responses.  Handler results, which Go marshals in `writeResponse`, are
marshalled at the handler boundary here (the encoders are total).
Definitions missing from the available sources but referenced by them
(the error constructors, the MCP method-name constants, and the
resource/prompt type definitions) are modelled from the specification and
marked as such in their doc comments.
-/

namespace MCPStore

/-- A JSON value, standing in for a Go `interface{}` holding decoded JSON
data (`map[string]interface{}` objects are association lists in field
order). Numbers are integers, which covers every numeric value this
protocol core produces or inspects. -/
inductive Json where
  | null : Json
  | bool : Bool → Json
  | num : Int → Json
  | str : String → Json
  | arr : List Json → Json
  | obj : List (String × Json) → Json

/-- `true` iff the value is JSON `null` (a Go nil interface). -/
def Json.isNull : Json → Bool
  | .null => true
  | _ => false

/-- Field lookup in a decoded JSON object, as Go field extraction during
`json.Unmarshal` (first binding wins; our encoders never duplicate keys). -/
def getField : List (String × Json) → String → Option Json
  | [], _ => none
  | (k0, v) :: rest, k => if k0 = k then some v else getField rest k

/-! ### Go map model

Go maps keyed by strings are embedded as association lists with unique keys:
insertion replaces an existing binding in place or appends a fresh one, so
the list length is the map's size and the key list enumerates its key set. -/

/-- Go map assignment `m[k] = v`: replace the binding for `k` if present,
otherwise append it. -/
def mapInsert {α : Type} : List (String × α) → String → α → List (String × α)
  | [], k, v => [(k, v)]
  | (k0, v0) :: rest, k, v =>
      if k0 = k then (k, v) :: rest else (k0, v0) :: mapInsert rest k v

/-- Go map read `m[k]` (with its ok flag folded into `Option`). -/
def mapLookup {α : Type} : List (String × α) → String → Option α
  | [], _ => none
  | (k0, v0) :: rest, k => if k0 = k then some v0 else mapLookup rest k

/-- The key set of an embedded Go map. -/
def mapKeys {α : Type} (m : List (String × α)) : List String :=
  m.map Prod.fst

/-- The values of an embedded Go map, in iteration order. -/
def mapValues {α : Type} (m : List (String × α)) : List α :=
  m.map Prod.snd

/-! ### JSON-RPC wire types (`internal/jsonrpc`, types file) -/

/-- JSON-RPC 2.0 error object (`jsonrpc.Error`): `code`, `message`, and an
optional `data` payload (`interface{}`, nil when absent). -/
structure Error where
  code : Int
  message : String
  data : Option Json

/-- JSON-RPC 2.0 request (`jsonrpc.Request`).  `params` is the raw
`json.RawMessage` (none when absent); `id` is an `interface{}` that is nil
both when the field is absent and when it is JSON `null`. -/
structure Request where
  jsonrpc : String
  method : String
  params : Option Json
  id : Option Json

/-- JSON-RPC 2.0 response (`jsonrpc.Response`). -/
structure Response where
  jsonrpc : String
  result : Option Json
  error : Option Error
  id : Option Json

/-! JSON-RPC 2.0 error codes (`internal/jsonrpc/errors.go`). -/

/-- Invalid JSON. -/
def ErrorParse : Int := -32700
/-- Invalid Request. -/
def ErrorInvalidRequest : Int := -32600
/-- Method Not Found. -/
def ErrorMethodNotFound : Int := -32601
/-- Invalid Params. -/
def ErrorInvalidParams : Int := -32602
/-- Internal Error. -/
def ErrorInternal : Int := -32603

/-- Modelled from the spec: the error-constructor definitions are not among
the available sources (only their callers are).  Per the spec taxonomy,
`NewParseError` builds a ParseError (-32700) with the given message and
data payload. -/
def NewParseError (message : String) (data : Option Json) : Error :=
  ⟨ErrorParse, message, data⟩

/-- Modelled from the spec: builds a MethodNotFound error (-32601). -/
def NewMethodNotFoundError (message : String) (data : Option Json) : Error :=
  ⟨ErrorMethodNotFound, message, data⟩

/-- Modelled from the spec: builds an InvalidParams error (-32602). -/
def NewInvalidParamsError (message : String) (data : Option Json) : Error :=
  ⟨ErrorInvalidParams, message, data⟩

/-- Modelled from the spec: builds an InternalError (-32603). -/
def NewInternalError (message : String) (data : Option Json) : Error :=
  ⟨ErrorInternal, message, data⟩

/-- `Request.IsNotification`: a request is a notification when its `id` is
nil (absent or JSON `null`). -/
def Request.IsNotification (r : Request) : Bool :=
  r.id.isNone

/-- `Request.Validate`: the `jsonrpc` field must be the literal "2.0" and
`method` must be non-empty; returns the InvalidRequest error otherwise. -/
def Request.Validate (r : Request) : Option Error :=
  if r.jsonrpc ≠ "2.0" then
    some ⟨ErrorInvalidRequest, "Invalid JSON-RPC version", none⟩
  else if r.method = "" then
    some ⟨ErrorInvalidRequest, "Method is required", none⟩
  else
    none

/-- `jsonrpc.NewResponse`. -/
def NewResponse (id : Option Json) (result : Option Json) (err : Option Error) : Response :=
  ⟨"2.0", result, err, id⟩

/-- `jsonrpc.NewErrorResponse`. -/
def NewErrorResponse (id : Option Json) (err : Error) : Response :=
  NewResponse id none (some err)

/-- `jsonrpc.NewSuccessResponse`. -/
def NewSuccessResponse (id : Option Json) (result : Option Json) : Response :=
  NewResponse id result none

/-! ### Response marshalling and unmarshalling

`Server.writeResponse` marshals a `Response` with `encoding/json`; the
struct tags give `result`, `error`, `id` and `data` the `omitempty`
behaviour (omitted when the Go value is a nil interface or nil pointer).
The codec is embedded at the JSON-tree level: `encodeResponse` is the
marshalled object for one output line, `decodeResponse` is
`json.Unmarshal` of such a line back into a `Response`. -/

/-- Marshal an `Error`: `code`, `message`, and `data` only when present. -/
def encodeError (e : Error) : Json :=
  Json.obj ([("code", Json.num e.code), ("message", Json.str e.message)] ++
    (match e.data with
     | none => []
     | some d => [("data", d)]))

/-- Marshal a `Response` in struct-field order, honouring `omitempty`. -/
def encodeResponse (r : Response) : Json :=
  Json.obj ([("jsonrpc", Json.str r.jsonrpc)] ++
    (match r.result with
     | none => []
     | some v => [("result", v)]) ++
    (match r.error with
     | none => []
     | some e => [("error", encodeError e)]) ++
    (match r.id with
     | none => []
     | some v => [("id", v)]))

/-- Unmarshalling a JSON `null` into an `interface{}` field stores a nil
interface, indistinguishable from an absent field. -/
def denull (f : Option Json) : Option Json :=
  match f with
  | none => none
  | some v => if v.isNull then none else some v

/-- Unmarshal a string-typed struct field: absent or `null` leaves the zero
value, a non-string value is a decode error. -/
def parseString (f : Option Json) : Option String :=
  match f with
  | none => some ""
  | some Json.null => some ""
  | some (Json.str s) => some s
  | some _ => none

/-- Unmarshal a JSON value into `jsonrpc.Error` (an int `code`, a string
`message`, and an arbitrary `data` payload). -/
def decodeError (j : Json) : Option Error :=
  match j with
  | Json.obj fields =>
      match (match getField fields "code" with
             | none => some (0 : Int)
             | some Json.null => some (0 : Int)
             | some (Json.num n) => some n
             | some _ => none),
            parseString (getField fields "message") with
      | some c, some m => some ⟨c, m, denull (getField fields "data")⟩
      | _, _ => none
  | Json.null => some ⟨0, "", none⟩
  | _ => none

/-- Unmarshal a JSON value into `jsonrpc.Response`.  A `null` or absent
`error` field leaves the nil pointer; `result` and `id` are `interface{}`
fields, so `null` collapses to nil. -/
def decodeResponse (j : Json) : Option Response :=
  match j with
  | Json.obj fields =>
      match parseString (getField fields "jsonrpc"),
            (match getField fields "error" with
             | none => some none
             | some Json.null => some none
             | some v => (decodeError v).map some) with
      | some jr, some err =>
          some ⟨jr, denull (getField fields "result"), err,
                denull (getField fields "id")⟩
      | _, _ => none
  | Json.null => some ⟨"", none, none, none⟩
  | _ => none

/-! ### JSON-RPC server (dispatcher and transport loop, `internal/jsonrpc`) -/

/-- `jsonrpc.Handler`: a method handler takes the raw params payload and
returns an `interface{}` result (marshalled here, nil when none) or a
protocol error. -/
def Handler : Type :=
  Option Json → Option Json × Option Error

/-- `jsonrpc.Server`: the method-name to handler mapping.  The logger is
observability only and is not modelled. -/
structure Server where
  handlers : List (String × Handler)

/-- `jsonrpc.NewServer`: empty handler map. -/
def NewServer : Server :=
  ⟨[]⟩

/-- `Server.RegisterMethod`: insert or overwrite the handler for a method. -/
def Server.RegisterMethod (s : Server) (method : String) (h : Handler) : Server :=
  ⟨mapInsert s.handlers method h⟩

/-- `Server.HandleRequest`: validate, look up the handler by method name
(MethodNotFound if absent), invoke it, and wrap the outcome in a response
carrying the request id.  Handlers return typed protocol errors, so the
error branch passes them through verbatim. -/
def Server.HandleRequest (s : Server) (req : Request) : Response :=
  match req.Validate with
  | some e => NewErrorResponse req.id e
  | none =>
      match mapLookup s.handlers req.method with
      | none =>
          NewErrorResponse req.id
            (NewMethodNotFoundError ("Method " ++ req.method ++ " not found") none)
      | some h =>
          match h req.params with
          | (_, some e) => NewErrorResponse req.id e
          | (result, none) => NewSuccessResponse req.id result

/-- One line read from standard input: either text that fails
`json.Unmarshal` (with the decoder's error text) or a decoded `Request`. -/
inductive Line where
  | malformed (errText : String) : Line
  | parsed (req : Request) : Line

/-- The body of the `ServeStdio` loop for one input line: a malformed line
yields one ParseError response with nil id; a parsed request is dispatched,
and the response is written unless the request is a notification. -/
def Server.serveLine (s : Server) (l : Line) : List Response :=
  match l with
  | .malformed errText =>
      [NewErrorResponse none
        (NewParseError "Failed to unmarshal request" (some (Json.str errText)))]
  | .parsed req =>
      let resp := s.HandleRequest req
      if req.IsNotification then [] else [resp]

/-- `Server.ServeStdio`: the transport loop over a finite input stream,
returning the sequence of response lines written to standard output (the
loop itself ends cleanly at end of stream). -/
def Server.ServeStdio (s : Server) (input : List Line) : List Response :=
  input.flatMap s.serveLine

/-! ### MCP types (`internal/mcp/types.go`, `internal/mcp/tools.go`) -/

/-- The fixed MCP protocol version literal. -/
def ProtocolVersion : String := "2025-11-25"

/-- Tool capability advertisement. -/
structure ToolCapability where
  listChanged : Bool

/-- Resource capability advertisement. -/
structure ResourceCapability where
  subscribe : Bool
  listChanged : Bool

/-- Prompt capability advertisement. -/
structure PromptCapability where
  listChanged : Bool

/-- Logging capability advertisement (an empty struct). -/
structure LoggingCapability where
  unit : Unit := ()

/-- `mcp.ServerCapabilities`: each field is a nilable pointer. -/
structure ServerCapabilities where
  tools : Option ToolCapability
  resources : Option ResourceCapability
  prompts : Option PromptCapability
  logging : Option LoggingCapability

/-- `mcp.ClientInfo`: identifies a client or server. -/
structure ClientInfo where
  name : String
  version : String

/-- A property inside a tool input schema. -/
structure Property where
  type : String
  description : String

/-- `mcp.InputSchema`: a JSON-Schema-like object. -/
structure InputSchema where
  type : String
  properties : List (String × Property)
  required : List String

/-- `mcp.Tool`: declarative tool metadata. -/
structure Tool where
  name : String
  description : String
  inputSchema : InputSchema

/-- `mcp.Content`: a content block; `type` is "text", "image" or
"resource" and the remaining fields are populated per type. -/
structure Content where
  type : String
  text : String
  mimeType : String
  data : String
  uri : String

/-- `mcp.NewTextContent`: a text content block. -/
def NewTextContent (text : String) : Content :=
  { type := "text", text := text, mimeType := "", data := "", uri := "" }

/-- `mcp.ToolCallParams`: the params of a `tools/call` request; the
argument map is a Go `map[string]interface{}` (empty when absent). -/
structure ToolCallParams where
  name : String
  arguments : List (String × Json)

/-- `mcp.ToolCallResult`: the result of executing a tool. -/
structure ToolCallResult where
  content : List Content
  isError : Bool

/-- `mcp.ToolListResult`: the result of `tools/list` (with the embedded
pagination cursor, which this server never sets). -/
structure ToolListResult where
  tools : List Tool
  nextCursor : Option String

/-- Modelled from the spec: the `Resource` type definition is not among the
available sources.  Per the spec data model it is a URI (the unique key)
plus descriptive metadata. -/
structure Resource where
  uri : String
  name : String
  description : String
  mimeType : String

/-- Modelled from the spec: the `Prompt` type definition is not among the
available sources.  Per the spec data model it is a name (the unique key)
plus descriptive metadata. -/
structure Prompt where
  name : String
  description : String

/-- Modelled from the spec: the `resources/read` result is the resource
contents as content blocks. -/
structure ReadResourceResult where
  contents : List Content

/-- Modelled from the spec: the `resources/list` result. -/
structure ListResourcesResult where
  resources : List Resource

/-- Modelled from the spec: the `prompts/list` result. -/
structure ListPromptsResult where
  prompts : List Prompt

/-- Modelled from the spec: the `prompts/get` result is a resolved prompt
(description plus message content). -/
structure GetPromptResult where
  description : String
  messages : List Content

/-- Modelled from the spec: the params of `resources/read` are `{uri}`. -/
structure ReadResourceParams where
  uri : String

/-- Modelled from the spec: the params of `prompts/get` are `{name,
arguments?}` with a `map[string]string` argument map. -/
structure GetPromptParams where
  name : String
  arguments : List (String × String)

/-- `mcp.InitializeRequest`: client capabilities are parsed but the core
only logs them, so they are kept as decoded data. -/
structure InitializeRequest where
  protocolVersion : String
  clientName : String
  clientVersion : String

/-- `mcp.InitializeResult`. -/
structure InitializeResult where
  protocolVersion : String
  capabilities : ServerCapabilities
  serverInfo : ClientInfo
  instructions : String

/-- Modelled from the spec: the MCP method-name constants (§6 methods
table) are not among the available sources. -/
def MethodInitialize : String := "initialize"
/-- Modelled from the spec: method-name constant. -/
def MethodPing : String := "ping"
/-- Modelled from the spec: method-name constant. -/
def MethodToolsList : String := "tools/list"
/-- Modelled from the spec: method-name constant. -/
def MethodToolsCall : String := "tools/call"
/-- Modelled from the spec: method-name constant. -/
def MethodResourcesList : String := "resources/list"
/-- Modelled from the spec: method-name constant. -/
def MethodResourcesRead : String := "resources/read"
/-- Modelled from the spec: method-name constant. -/
def MethodPromptsList : String := "prompts/list"
/-- Modelled from the spec: method-name constant. -/
def MethodPromptsGet : String := "prompts/get"
/-- Modelled from the spec: method-name constant for the `initialized`
notification. -/
def NotificationInitialized : String := "notifications/initialized"

/-! ### Handler function types (`internal/mcp`, registry file) -/

/-- `mcp.ToolHandler`: executes a tool; the error branch carries the
message text of the returned Go error. -/
def ToolHandler : Type :=
  List (String × Json) → Option ToolCallResult × Option String

/-- `mcp.ResourceHandler`: reads a resource by URI. -/
def ResourceHandler : Type :=
  String → Option ReadResourceResult × Option String

/-- `mcp.PromptHandler`: resolves a prompt with string arguments. -/
def PromptHandler : Type :=
  List (String × String) → Option GetPromptResult × Option String

/-! ### Marshalling of MCP result types

In Go these structs are marshalled by `encoding/json` inside
`writeResponse`; the embedding applies the (total, struct-tag-faithful)
encoders at the handler boundary instead. -/

/-- An `omitempty` string field: omitted when empty. -/
def optStrField (k : String) (v : String) : List (String × Json) :=
  if v = "" then [] else [(k, Json.str v)]

/-- Marshal a `Content` block (`type` always, the rest `omitempty`). -/
def encodeContent (c : Content) : Json :=
  Json.obj ([("type", Json.str c.type)] ++ optStrField "text" c.text ++
    optStrField "mimeType" c.mimeType ++ optStrField "data" c.data ++
    optStrField "uri" c.uri)

/-- Marshal a `ToolCallResult` (`isError` is `omitempty`, dropped when
false). -/
def encodeToolCallResult (t : ToolCallResult) : Json :=
  Json.obj ([("content", Json.arr (t.content.map encodeContent))] ++
    (if t.isError then [("isError", Json.bool true)] else []))

/-- Marshal a schema `Property`. -/
def encodeProperty (p : Property) : Json :=
  Json.obj ([("type", Json.str p.type)] ++ optStrField "description" p.description)

/-- Marshal an `InputSchema` (`properties` and `required` are `omitempty`,
dropped when empty). -/
def encodeInputSchema (s : InputSchema) : Json :=
  Json.obj ([("type", Json.str s.type)] ++
    (if s.properties.isEmpty then []
     else [("properties",
            Json.obj (s.properties.map (fun p => (p.1, encodeProperty p.2))))]) ++
    (if s.required.isEmpty then []
     else [("required", Json.arr (s.required.map Json.str))]))

/-- Marshal a `Tool`. -/
def encodeTool (t : Tool) : Json :=
  Json.obj ([("name", Json.str t.name)] ++ optStrField "description" t.description ++
    [("inputSchema", encodeInputSchema t.inputSchema)])

/-- Marshal a `ToolListResult`. -/
def encodeToolListResult (r : ToolListResult) : Json :=
  Json.obj ([("tools", Json.arr (r.tools.map encodeTool))] ++
    (match r.nextCursor with
     | none => []
     | some c => [("nextCursor", Json.str c)]))

/-- Marshal a `Resource`. -/
def encodeResource (r : Resource) : Json :=
  Json.obj ([("uri", Json.str r.uri)] ++ optStrField "name" r.name ++
    optStrField "description" r.description ++ optStrField "mimeType" r.mimeType)

/-- Marshal a `ListResourcesResult`. -/
def encodeListResourcesResult (r : ListResourcesResult) : Json :=
  Json.obj [("resources", Json.arr (r.resources.map encodeResource))]

/-- Marshal a `ReadResourceResult`. -/
def encodeReadResourceResult (r : ReadResourceResult) : Json :=
  Json.obj [("contents", Json.arr (r.contents.map encodeContent))]

/-- Marshal a `Prompt`. -/
def encodePrompt (p : Prompt) : Json :=
  Json.obj ([("name", Json.str p.name)] ++ optStrField "description" p.description)

/-- Marshal a `ListPromptsResult`. -/
def encodeListPromptsResult (r : ListPromptsResult) : Json :=
  Json.obj [("prompts", Json.arr (r.prompts.map encodePrompt))]

/-- Marshal a `GetPromptResult`. -/
def encodeGetPromptResult (r : GetPromptResult) : Json :=
  Json.obj (optStrField "description" r.description ++
    [("messages", Json.arr (r.messages.map encodeContent))])

/-- Marshal a `ToolCapability`. -/
def encodeToolCapability (c : ToolCapability) : Json :=
  Json.obj (if c.listChanged then [("listChanged", Json.bool true)] else [])

/-- Marshal a `ResourceCapability`. -/
def encodeResourceCapability (c : ResourceCapability) : Json :=
  Json.obj ((if c.subscribe then [("subscribe", Json.bool true)] else []) ++
    (if c.listChanged then [("listChanged", Json.bool true)] else []))

/-- Marshal a `PromptCapability`. -/
def encodePromptCapability (c : PromptCapability) : Json :=
  Json.obj (if c.listChanged then [("listChanged", Json.bool true)] else [])

/-- Marshal a `ServerCapabilities` value (each field is an `omitempty`
pointer). -/
def encodeServerCapabilities (c : ServerCapabilities) : Json :=
  Json.obj ((match c.tools with
             | none => []
             | some t => [("tools", encodeToolCapability t)]) ++
    (match c.resources with
     | none => []
     | some t => [("resources", encodeResourceCapability t)]) ++
    (match c.prompts with
     | none => []
     | some t => [("prompts", encodePromptCapability t)]) ++
    (match c.logging with
     | none => []
     | some _ => [("logging", Json.obj [])]))

/-- Marshal a `ClientInfo`. -/
def encodeClientInfo (c : ClientInfo) : Json :=
  Json.obj [("name", Json.str c.name), ("version", Json.str c.version)]

/-- Marshal an `InitializeResult` (`instructions` is `omitempty`). -/
def encodeInitializeResult (r : InitializeResult) : Json :=
  Json.obj ([("protocolVersion", Json.str r.protocolVersion),
             ("capabilities", encodeServerCapabilities r.capabilities),
             ("serverInfo", encodeClientInfo r.serverInfo)] ++
    optStrField "instructions" r.instructions)

/-! ### Param unmarshalling (`json.Unmarshal` into the params structs)

`params` is a raw `json.RawMessage`; unmarshalling a nil/absent payload is
an error, `null` leaves the zero value, an object binds the tagged fields
(unknown fields ignored, mistyped fields fail), and any other JSON value
fails. -/

/-- Unmarshal an `interface{}`-valued argument map field. -/
def parseArgMap (f : Option Json) : Option (List (String × Json)) :=
  match f with
  | none => some []
  | some Json.null => some []
  | some (Json.obj fields) => some fields
  | some _ => none

/-- Unmarshal a `map[string]string` field. -/
def parseStringMap (f : Option Json) : Option (List (String × String)) :=
  match f with
  | none => some []
  | some Json.null => some []
  | some (Json.obj fields) =>
      fields.mapM (fun p =>
        match p.2 with
        | Json.str s => some (p.1, s)
        | Json.null => some (p.1, "")
        | _ => none)
  | some _ => none

/-- Unmarshal `tools/call` params into `ToolCallParams`. -/
def parseToolCallParams (params : Option Json) : Option ToolCallParams :=
  match params with
  | none => none
  | some Json.null => some ⟨"", []⟩
  | some (Json.obj fields) =>
      match parseString (getField fields "name"),
            parseArgMap (getField fields "arguments") with
      | some n, some a => some ⟨n, a⟩
      | _, _ => none
  | some _ => none

/-- Unmarshal `resources/read` params into `ReadResourceParams`. -/
def parseReadResourceParams (params : Option Json) : Option ReadResourceParams :=
  match params with
  | none => none
  | some Json.null => some ⟨""⟩
  | some (Json.obj fields) =>
      match parseString (getField fields "uri") with
      | some u => some ⟨u⟩
      | none => none
  | some _ => none

/-- Unmarshal `prompts/get` params into `GetPromptParams`. -/
def parseGetPromptParams (params : Option Json) : Option GetPromptParams :=
  match params with
  | none => none
  | some Json.null => some ⟨"", []⟩
  | some (Json.obj fields) =>
      match parseString (getField fields "name"),
            parseStringMap (getField fields "arguments") with
      | some n, some a => some ⟨n, a⟩
      | _, _ => none
  | some _ => none

/-- Unmarshal `initialize` params into `InitializeRequest` (the nested
`clientInfo` object; the client capability payload is accepted as-is,
matching the permissive `interface{}`-backed fields it decodes into). -/
def parseInitializeRequest (params : Option Json) : Option InitializeRequest :=
  match params with
  | none => none
  | some Json.null => some ⟨"", "", ""⟩
  | some (Json.obj fields) =>
      match parseString (getField fields "protocolVersion"),
            (match getField fields "clientInfo" with
             | none => some ("", "")
             | some Json.null => some ("", "")
             | some (Json.obj cf) =>
                 match parseString (getField cf "name"),
                       parseString (getField cf "version") with
                 | some n, some v => some (n, v)
                 | _, _ => none
             | some _ => none) with
      | some pv, some ci => some ⟨pv, ci.1, ci.2⟩
      | _, _ => none
  | some _ => none

/-! ### The MCP registry (`internal/mcp`, registry file) -/

/-- `mcp.Registry`: three keyed stores paired with handler stores keyed
identically, plus the server identity and the capability set computed at
wiring time.  The logger and the lock (which only guards the maps during
the sequential loop) are not modelled. -/
structure Registry where
  serverInfo : ClientInfo
  capabilities : ServerCapabilities
  instructions : String
  tools : List (String × Tool)
  toolHandlers : List (String × ToolHandler)
  resources : List (String × Resource)
  resourceHandlers : List (String × ResourceHandler)
  prompts : List (String × Prompt)
  promptHandlers : List (String × PromptHandler)

/-- `mcp.NewRegistry`: empty stores, zero-valued capabilities. -/
def NewRegistry (serverInfo : ClientInfo) (instructions : String) : Registry :=
  { serverInfo := serverInfo
    capabilities := ⟨none, none, none, none⟩
    instructions := instructions
    tools := []
    toolHandlers := []
    resources := []
    resourceHandlers := []
    prompts := []
    promptHandlers := [] }

/-- `Registry.RegisterTool`: insert the tool and its handler under the
tool's name. -/
def Registry.RegisterTool (r : Registry) (tool : Tool) (handler : ToolHandler) :
    Registry :=
  { r with
    tools := mapInsert r.tools tool.name tool
    toolHandlers := mapInsert r.toolHandlers tool.name handler }

/-- `Registry.RegisterResource`: insert the resource and its handler under
the resource's URI. -/
def Registry.RegisterResource (r : Registry) (resource : Resource)
    (handler : ResourceHandler) : Registry :=
  { r with
    resources := mapInsert r.resources resource.uri resource
    resourceHandlers := mapInsert r.resourceHandlers resource.uri handler }

/-- `Registry.RegisterPrompt`: insert the prompt and its handler under the
prompt's name. -/
def Registry.RegisterPrompt (r : Registry) (prompt : Prompt)
    (handler : PromptHandler) : Registry :=
  { r with
    prompts := mapInsert r.prompts prompt.name prompt
    promptHandlers := mapInsert r.promptHandlers prompt.name handler }

/-- `Registry.buildCapabilities`: logging always; tools, resources and
prompts present exactly when the respective store is non-empty, each with
its static sub-flags. -/
def Registry.buildCapabilities (r : Registry) : ServerCapabilities :=
  { tools := if r.tools.length > 0 then some { listChanged := false } else none
    resources :=
      if r.resources.length > 0 then
        some { subscribe := false, listChanged := false }
      else none
    prompts := if r.prompts.length > 0 then some { listChanged := false } else none
    logging := some {} }

/-- `Registry.handleInitialize`: parse the params (InvalidParams on bad
JSON) and return the fixed protocol version, the previously built
capability set, the server identity and the instructions. -/
def Registry.handleInitialize (r : Registry) : Handler := fun params =>
  match parseInitializeRequest params with
  | none => (none, some (NewInvalidParamsError "Invalid initialize params" none))
  | some _ =>
      (some (encodeInitializeResult
        { protocolVersion := ProtocolVersion
          capabilities := r.capabilities
          serverInfo := r.serverInfo
          instructions := r.instructions }), none)

/-- `Registry.handlePing`: an empty result, unconditionally. -/
def Registry.handlePing (_r : Registry) : Handler := fun _ =>
  (some (Json.obj []), none)

/-- `Registry.handleInitializedNotification`: log-only, nil result. -/
def Registry.handleInitializedNotification (_r : Registry) : Handler := fun _ =>
  (none, none)

/-- `Registry.handleToolsList`: all registered tools, in map iteration
order. -/
def Registry.handleToolsList (r : Registry) : Handler := fun _ =>
  (some (encodeToolListResult { tools := mapValues r.tools, nextCursor := none }),
   none)

/-- `Registry.handleToolsCall`: parse `{name, arguments}` (InvalidParams on
bad JSON), look up the handler (InvalidParams when the name is not
registered), and invoke it.  A handler failure becomes a successful
tool-call result carrying the error text with `isError` set, not a
JSON-RPC error.  (The Go code attaches the unmarshal error text as the
InvalidParams data; that payload is not modelled.) -/
def Registry.handleToolsCall (r : Registry) : Handler := fun params =>
  match parseToolCallParams params with
  | none => (none, some (NewInvalidParamsError "Invalid tool call params" none))
  | some req =>
      match mapLookup r.toolHandlers req.name with
      | none =>
          (none, some (NewInvalidParamsError ("Tool " ++ req.name ++ " not found") none))
      | some handler =>
          match handler req.arguments with
          | (_, some errMsg) =>
              (some (encodeToolCallResult
                { content := [NewTextContent errMsg], isError := true }), none)
          | (result, none) => (result.map encodeToolCallResult, none)

/-- `Registry.handleResourcesList`: all registered resources. -/
def Registry.handleResourcesList (r : Registry) : Handler := fun _ =>
  (some (encodeListResourcesResult { resources := mapValues r.resources }), none)

/-- `Registry.handleResourcesRead`: parse `{uri}` (InvalidParams on bad
JSON), look up the handler (InvalidParams when the URI is not registered),
and invoke it.  A handler failure becomes an InternalError whose data is
the error text. -/
def Registry.handleResourcesRead (r : Registry) : Handler := fun params =>
  match parseReadResourceParams params with
  | none => (none, some (NewInvalidParamsError "Invalid resource read params" none))
  | some req =>
      match mapLookup r.resourceHandlers req.uri with
      | none =>
          (none,
           some (NewInvalidParamsError ("Resource " ++ req.uri ++ " not found") none))
      | some handler =>
          match handler req.uri with
          | (_, some errMsg) =>
              (none,
               some (NewInternalError "Failed to read resource"
                 (some (Json.str errMsg))))
          | (result, none) => (result.map encodeReadResourceResult, none)

/-- `Registry.handlePromptsList`: all registered prompts. -/
def Registry.handlePromptsList (r : Registry) : Handler := fun _ =>
  (some (encodeListPromptsResult { prompts := mapValues r.prompts }), none)

/-- `Registry.handlePromptsGet`: parse `{name, arguments}` (InvalidParams
on bad JSON), look up the handler (InvalidParams when the name is not
registered), and invoke it.  A handler failure becomes an InternalError
whose data is the error text. -/
def Registry.handlePromptsGet (r : Registry) : Handler := fun params =>
  match parseGetPromptParams params with
  | none => (none, some (NewInvalidParamsError "Invalid prompt get params" none))
  | some req =>
      match mapLookup r.promptHandlers req.name with
      | none =>
          (none,
           some (NewInvalidParamsError ("Prompt " ++ req.name ++ " not found") none))
      | some handler =>
          match handler req.arguments with
          | (_, some errMsg) =>
              (none,
               some (NewInternalError "Failed to get prompt" (some (Json.str errMsg))))
          | (result, none) => (result.map encodeGetPromptResult, none)

/-- `Registry.RegisterHandlers`: compute the capability set, then wire the
MCP methods onto the JSON-RPC server — `initialize` and `ping` always, the
tool, resource and prompt method pairs only when the respective capability
was derived, and the `initialized` notification last.  Returns the updated
registry (with its capabilities set) together with the wired server. -/
def Registry.RegisterHandlers (r : Registry) (server : Server) :
    Registry × Server :=
  let r2 : Registry := { r with capabilities := r.buildCapabilities }
  let s1 := server.RegisterMethod MethodInitialize r2.handleInitialize
  let s2 := s1.RegisterMethod MethodPing r2.handlePing
  let s3 :=
    if r2.capabilities.tools.isSome then
      (s2.RegisterMethod MethodToolsList r2.handleToolsList).RegisterMethod
        MethodToolsCall r2.handleToolsCall
    else s2
  let s4 :=
    if r2.capabilities.resources.isSome then
      (s3.RegisterMethod MethodResourcesList r2.handleResourcesList).RegisterMethod
        MethodResourcesRead r2.handleResourcesRead
    else s3
  let s5 :=
    if r2.capabilities.prompts.isSome then
      (s4.RegisterMethod MethodPromptsList r2.handlePromptsList).RegisterMethod
        MethodPromptsGet r2.handlePromptsGet
    else s4
  let s6 := s5.RegisterMethod NotificationInitialized r2.handleInitializedNotification
  (r2, s6)

/-! ### Registration sequences

Startup performs a sequence of `Register*` calls against the fresh
registry; reachable registry states are exactly the results of such
sequences. -/

/-- One registration call made during startup. -/
inductive RegEvent where
  | tool (t : Tool) (h : ToolHandler) : RegEvent
  | resource (res : Resource) (h : ResourceHandler) : RegEvent
  | prompt (p : Prompt) (h : PromptHandler) : RegEvent

/-- Apply one registration call. -/
def applyEvent (r : Registry) (e : RegEvent) : Registry :=
  match e with
  | .tool t h => r.RegisterTool t h
  | .resource res h => r.RegisterResource res h
  | .prompt p h => r.RegisterPrompt p h

/-- Apply a startup registration sequence in order. -/
def applyEvents (r : Registry) (es : List RegEvent) : Registry :=
  es.foldl applyEvent r

/-- The names of the tools registered by a sequence, in order. -/
def toolNames (es : List RegEvent) : List String :=
  es.filterMap (fun e =>
    match e with
    | .tool t _ => some t.name
    | _ => none)

/-- The URIs of the resources registered by a sequence, in order. -/
def resourceUris (es : List RegEvent) : List String :=
  es.filterMap (fun e =>
    match e with
    | .resource res _ => some res.uri
    | _ => none)

/-- The names of the prompts registered by a sequence, in order. -/
def promptNames (es : List RegEvent) : List String :=
  es.filterMap (fun e =>
    match e with
    | .prompt p _ => some p.name
    | _ => none)

/-! ### Validity of Response values

A Go `Response` built by this server holds decoded JSON data (or nothing)
in its `interface{}` fields; the nil interface is the unique representative
of JSON `null` there, so a field value that is itself the `null` literal
does not correspond to any such Go value.  A valid response additionally
carries exactly one of `result`/`error`, per the wire data model. -/

/-- A `Response` in one of the valid field combinations: result-only or
error-only (the latter with or without `data`), with every present
`interface{}` payload being proper decoded JSON data (not the `null`
literal, whose Go representative is field absence). -/
def validResponse (r : Response) : Prop :=
  (r.result.isSome = true ∧ r.error = none ∨
   r.result = none ∧ r.error.isSome = true) ∧
  (∀ v, r.result = some v → v.isNull = false) ∧
  (∀ v, r.id = some v → v.isNull = false) ∧
  (∀ e, r.error = some e → ∀ d, e.data = some d → d.isNull = false)

/-! ### Concrete fixtures used by the witnesses -/

/-- A concrete input schema. -/
def demoSchema : InputSchema :=
  { type := "object", properties := [], required := [] }

/-- A concrete tool. -/
def demoTool : Tool :=
  { name := "ping", description := "responds", inputSchema := demoSchema }

/-- A tool handler that always fails with message "boom". -/
def demoFailToolHandler : ToolHandler := fun _ =>
  (none, some "boom")

/-- A concrete resource. -/
def demoResource : Resource :=
  { uri := "store://catalog", name := "catalog", description := "", mimeType := "" }

/-- A resource handler that always fails with message "down". -/
def demoFailResourceHandler : ResourceHandler := fun _ =>
  (none, some "down")

/-- A concrete prompt. -/
def demoPrompt : Prompt :=
  { name := "greet", description := "" }

/-- A prompt handler that always fails with message "offline". -/
def demoFailPromptHandler : PromptHandler := fun _ =>
  (none, some "offline")

/-- A registry with one failing tool, resource and prompt registered. -/
def demoRegistry : Registry :=
  (((NewRegistry { name := "store", version := "1" } "").RegisterTool
      demoTool demoFailToolHandler).RegisterResource
      demoResource demoFailResourceHandler).RegisterPrompt
      demoPrompt demoFailPromptHandler

/-! ## Lemmas about the Go map model -/

theorem mapLookup_insert_self {α : Type} (m : List (String × α)) (k : String) (v : α) :
    mapLookup (mapInsert m k v) k = some v := by
  induction m with
  | nil => simp [mapInsert, mapLookup]
  | cons p rest ih =>
      obtain ⟨k0, v0⟩ := p
      by_cases h : k0 = k
      · simp [mapInsert, h, mapLookup]
      · simp [mapInsert, h, mapLookup, ih]

theorem mapLookup_insert_ne {α : Type} (m : List (String × α)) (k : String) (v : α)
    (k2 : String) (hne : k2 ≠ k) :
    mapLookup (mapInsert m k v) k2 = mapLookup m k2 := by
  have hkk2 : ¬k = k2 := fun h => hne h.symm
  induction m with
  | nil => simp [mapInsert, mapLookup, hkk2]
  | cons p rest ih =>
      obtain ⟨k0, v0⟩ := p
      by_cases h : k0 = k
      · subst h
        simp [mapInsert, mapLookup, hkk2]
      · simp only [mapInsert, if_neg h, mapLookup]
        by_cases h2 : k0 = k2
        · simp [h2]
        · simp [h2, ih]

theorem mapKeys_mapInsert {α : Type} (m : List (String × α)) (k : String) (v : α) :
    mapKeys (mapInsert m k v) =
      if k ∈ mapKeys m then mapKeys m else mapKeys m ++ [k] := by
  induction m with
  | nil => simp [mapInsert, mapKeys]
  | cons p rest ih =>
      obtain ⟨k0, v0⟩ := p
      by_cases h : k0 = k
      · subst h
        simp [mapInsert, mapKeys]
      · have hkk0 : ¬k = k0 := fun hh => h hh.symm
        simp only [mapInsert, if_neg h, mapKeys, List.map_cons]
        rw [show List.map Prod.fst (mapInsert rest k v) = mapKeys (mapInsert rest k v)
              from rfl,
            ih]
        by_cases hm : k ∈ mapKeys rest
        · rw [if_pos hm, if_pos (by simp [mapKeys] at hm ⊢; exact Or.inr hm)]
          rfl
        · rw [if_neg hm,
              if_neg (by simp [mapKeys, hkk0] at hm ⊢; exact hm),
              List.cons_append]
          rfl

theorem mapKeys_mapInsert_congr {α β : Type} (m1 : List (String × α))
    (m2 : List (String × β)) (k : String) (v1 : α) (v2 : β)
    (h : mapKeys m1 = mapKeys m2) :
    mapKeys (mapInsert m1 k v1) = mapKeys (mapInsert m2 k v2) := by
  rw [mapKeys_mapInsert, mapKeys_mapInsert, h]

theorem mem_mapKeys_mapInsert {α : Type} (m : List (String × α)) (k : String) (v : α)
    (a : String) :
    a ∈ mapKeys (mapInsert m k v) ↔ a = k ∨ a ∈ mapKeys m := by
  rw [mapKeys_mapInsert]
  split
  · next hin =>
      constructor
      · exact fun h => Or.inr h
      · rintro (rfl | h) <;> [exact hin; exact h]
  · simp [or_comm]

theorem nodup_mapKeys_mapInsert {α : Type} (m : List (String × α)) (k : String) (v : α)
    (h : (mapKeys m).Nodup) : (mapKeys (mapInsert m k v)).Nodup := by
  rw [mapKeys_mapInsert]
  split
  · exact h
  · next hnin => simp [List.nodup_append, h, hnin]

theorem mapLookup_isSome_iff {α : Type} (m : List (String × α)) (k : String) :
    (mapLookup m k).isSome = true ↔ k ∈ mapKeys m := by
  induction m with
  | nil => simp [mapLookup, mapKeys]
  | cons p rest ih =>
      obtain ⟨k0, v0⟩ := p
      by_cases h : k0 = k
      · simp [mapLookup, h, mapKeys]
      · have hkk0 : ¬k = k0 := fun hh => h hh.symm
        simp [mapLookup, h, mapKeys, ih, hkk0]

theorem length_mapKeys {α : Type} (m : List (String × α)) :
    (mapKeys m).length = m.length := by
  simp [mapKeys]

theorem length_mapValues {α : Type} (m : List (String × α)) :
    (mapValues m).length = m.length := by
  simp [mapValues]

theorem mapValues_map_eq_mapKeys {α : Type} (f : α → String) (m : List (String × α))
    (h : ∀ p ∈ m, f p.2 = p.1) :
    (mapValues m).map f = mapKeys m := by
  induction m with
  | nil => simp [mapValues, mapKeys]
  | cons p rest ih =>
      simp only [mapValues, mapKeys, List.map_cons] at *
      refine congrArg₂ _ (h p (by simp)) ?_
      exact ih (fun q hq => h q (by simp [hq]))

theorem keysMatch_mapInsert {α : Type} (f : α → String) (m : List (String × α))
    (k : String) (v : α) (h : ∀ p ∈ m, f p.2 = p.1) (hv : f v = k) :
    ∀ p ∈ mapInsert m k v, f p.2 = p.1 := by
  induction m with
  | nil =>
      intro p hp
      simp only [mapInsert, List.mem_singleton] at hp
      subst hp
      exact hv
  | cons q rest ih =>
      obtain ⟨k0, v0⟩ := q
      have hhead : f v0 = k0 := h (k0, v0) (by simp)
      have htail : ∀ p ∈ rest, f p.2 = p.1 := fun p hp => h p (by simp [hp])
      by_cases hk : k0 = k
      · subst hk
        intro p hp
        simp [mapInsert] at hp
        rcases hp with rfl | hp
        · exact hv
        · exact htail p hp
      · intro p hp
        simp [mapInsert, hk] at hp
        rcases hp with rfl | hp
        · exact hhead
        · exact ih htail p hp

/-! ## Lemmas about registration sequences -/

theorem applyEvents_nil (r : Registry) : applyEvents r [] = r := rfl

theorem applyEvents_cons (r : Registry) (e : RegEvent) (es : List RegEvent) :
    applyEvents r (e :: es) = applyEvents (applyEvent r e) es := rfl

theorem toolNames_cons_tool (t : Tool) (h : ToolHandler) (es : List RegEvent) :
    toolNames (RegEvent.tool t h :: es) = t.name :: toolNames es := rfl

theorem toolNames_cons_resource (res : Resource) (h : ResourceHandler)
    (es : List RegEvent) : toolNames (RegEvent.resource res h :: es) = toolNames es := rfl

theorem toolNames_cons_prompt (p : Prompt) (h : PromptHandler) (es : List RegEvent) :
    toolNames (RegEvent.prompt p h :: es) = toolNames es := rfl

theorem resourceUris_cons_tool (t : Tool) (h : ToolHandler) (es : List RegEvent) :
    resourceUris (RegEvent.tool t h :: es) = resourceUris es := rfl

theorem resourceUris_cons_resource (res : Resource) (h : ResourceHandler)
    (es : List RegEvent) :
    resourceUris (RegEvent.resource res h :: es) = res.uri :: resourceUris es := rfl

theorem resourceUris_cons_prompt (p : Prompt) (h : PromptHandler) (es : List RegEvent) :
    resourceUris (RegEvent.prompt p h :: es) = resourceUris es := rfl

theorem promptNames_cons_tool (t : Tool) (h : ToolHandler) (es : List RegEvent) :
    promptNames (RegEvent.tool t h :: es) = promptNames es := rfl

theorem promptNames_cons_resource (res : Resource) (h : ResourceHandler)
    (es : List RegEvent) : promptNames (RegEvent.resource res h :: es) = promptNames es := rfl

theorem promptNames_cons_prompt (p : Prompt) (h : PromptHandler) (es : List RegEvent) :
    promptNames (RegEvent.prompt p h :: es) = p.name :: promptNames es := rfl

theorem mem_tools_applyEvents (r : Registry) (es : List RegEvent) (n : String) :
    n ∈ mapKeys (applyEvents r es).tools ↔
      n ∈ mapKeys r.tools ∨ n ∈ toolNames es := by
  induction es generalizing r with
  | nil => simp [applyEvents, toolNames]
  | cons e rest ih =>
      rw [applyEvents_cons, ih]
      cases e with
      | tool t h =>
          rw [toolNames_cons_tool]
          dsimp only [applyEvent, Registry.RegisterTool]
          rw [mem_mapKeys_mapInsert]
          simp only [List.mem_cons]
          tauto
      | resource res h => exact Iff.rfl
      | prompt p h => exact Iff.rfl

theorem mem_resources_applyEvents (r : Registry) (es : List RegEvent) (n : String) :
    n ∈ mapKeys (applyEvents r es).resources ↔
      n ∈ mapKeys r.resources ∨ n ∈ resourceUris es := by
  induction es generalizing r with
  | nil => simp [applyEvents, resourceUris]
  | cons e rest ih =>
      rw [applyEvents_cons, ih]
      cases e with
      | tool t h => rfl
      | resource res h =>
          rw [resourceUris_cons_resource]
          dsimp only [applyEvent, Registry.RegisterResource]
          rw [mem_mapKeys_mapInsert]
          simp only [List.mem_cons]
          tauto
      | prompt p h => rfl

theorem mem_prompts_applyEvents (r : Registry) (es : List RegEvent) (n : String) :
    n ∈ mapKeys (applyEvents r es).prompts ↔
      n ∈ mapKeys r.prompts ∨ n ∈ promptNames es := by
  induction es generalizing r with
  | nil => simp [applyEvents, promptNames]
  | cons e rest ih =>
      rw [applyEvents_cons, ih]
      cases e with
      | tool t h => rfl
      | resource res h => rfl
      | prompt p h =>
          rw [promptNames_cons_prompt]
          dsimp only [applyEvent, Registry.RegisterPrompt]
          rw [mem_mapKeys_mapInsert]
          simp only [List.mem_cons]
          tauto

theorem nodup_tools_applyEvents (r : Registry) (es : List RegEvent)
    (h : (mapKeys r.tools).Nodup) : (mapKeys (applyEvents r es).tools).Nodup := by
  induction es generalizing r with
  | nil => exact h
  | cons e rest ih =>
      rw [applyEvents_cons]
      apply ih
      cases e with
      | tool t th => exact nodup_mapKeys_mapInsert _ _ _ h
      | resource res rh => exact h
      | prompt p ph => exact h

theorem nodup_resources_applyEvents (r : Registry) (es : List RegEvent)
    (h : (mapKeys r.resources).Nodup) :
    (mapKeys (applyEvents r es).resources).Nodup := by
  induction es generalizing r with
  | nil => exact h
  | cons e rest ih =>
      rw [applyEvents_cons]
      apply ih
      cases e with
      | tool t th => exact h
      | resource res rh => exact nodup_mapKeys_mapInsert _ _ _ h
      | prompt p ph => exact h

theorem nodup_prompts_applyEvents (r : Registry) (es : List RegEvent)
    (h : (mapKeys r.prompts).Nodup) :
    (mapKeys (applyEvents r es).prompts).Nodup := by
  induction es generalizing r with
  | nil => exact h
  | cons e rest ih =>
      rw [applyEvents_cons]
      apply ih
      cases e with
      | tool t th => exact h
      | resource res rh => exact h
      | prompt p ph => exact nodup_mapKeys_mapInsert _ _ _ h

theorem keysMatch_tools_applyEvents (r : Registry) (es : List RegEvent)
    (h : ∀ p ∈ r.tools, p.2.name = p.1) :
    ∀ p ∈ (applyEvents r es).tools, p.2.name = p.1 := by
  induction es generalizing r with
  | nil => exact h
  | cons e rest ih =>
      rw [applyEvents_cons]
      apply ih
      cases e with
      | tool t th => exact keysMatch_mapInsert Tool.name r.tools t.name t h rfl
      | resource res rh => exact h
      | prompt p ph => exact h

theorem keysMatch_resources_applyEvents (r : Registry) (es : List RegEvent)
    (h : ∀ p ∈ r.resources, p.2.uri = p.1) :
    ∀ p ∈ (applyEvents r es).resources, p.2.uri = p.1 := by
  induction es generalizing r with
  | nil => exact h
  | cons e rest ih =>
      rw [applyEvents_cons]
      apply ih
      cases e with
      | tool t th => exact h
      | resource res rh =>
          exact keysMatch_mapInsert Resource.uri r.resources res.uri res h rfl
      | prompt p ph => exact h

theorem keysMatch_prompts_applyEvents (r : Registry) (es : List RegEvent)
    (h : ∀ p ∈ r.prompts, p.2.name = p.1) :
    ∀ p ∈ (applyEvents r es).prompts, p.2.name = p.1 := by
  induction es generalizing r with
  | nil => exact h
  | cons e rest ih =>
      rw [applyEvents_cons]
      apply ih
      cases e with
      | tool t th => exact h
      | resource res rh => exact h
      | prompt p ph => exact keysMatch_mapInsert Prompt.name r.prompts p.name p h rfl

theorem keysEq_tools_applyEvents (r : Registry) (es : List RegEvent)
    (h : mapKeys r.tools = mapKeys r.toolHandlers) :
    mapKeys (applyEvents r es).tools = mapKeys (applyEvents r es).toolHandlers := by
  induction es generalizing r with
  | nil => exact h
  | cons e rest ih =>
      rw [applyEvents_cons]
      apply ih
      cases e with
      | tool t th => exact mapKeys_mapInsert_congr _ _ _ _ _ h
      | resource res rh => exact h
      | prompt p ph => exact h

theorem keysEq_resources_applyEvents (r : Registry) (es : List RegEvent)
    (h : mapKeys r.resources = mapKeys r.resourceHandlers) :
    mapKeys (applyEvents r es).resources =
      mapKeys (applyEvents r es).resourceHandlers := by
  induction es generalizing r with
  | nil => exact h
  | cons e rest ih =>
      rw [applyEvents_cons]
      apply ih
      cases e with
      | tool t th => exact h
      | resource res rh => exact mapKeys_mapInsert_congr _ _ _ _ _ h
      | prompt p ph => exact h

theorem keysEq_prompts_applyEvents (r : Registry) (es : List RegEvent)
    (h : mapKeys r.prompts = mapKeys r.promptHandlers) :
    mapKeys (applyEvents r es).prompts =
      mapKeys (applyEvents r es).promptHandlers := by
  induction es generalizing r with
  | nil => exact h
  | cons e rest ih =>
      rw [applyEvents_cons]
      apply ih
      cases e with
      | tool t th => exact h
      | resource res rh => exact h
      | prompt p ph => exact mapKeys_mapInsert_congr _ _ _ _ _ h

/-! ## Lemmas about wiring and dispatch -/

theorem lookup_RegisterMethod_self (s : Server) (m : String) (h : Handler) :
    mapLookup (s.RegisterMethod m h).handlers m = some h :=
  mapLookup_insert_self s.handlers m h

theorem lookup_RegisterMethod_ne (s : Server) (m : String) (h : Handler)
    (m2 : String) (hne : m2 ≠ m) :
    mapLookup (s.RegisterMethod m h).handlers m2 = mapLookup s.handlers m2 :=
  mapLookup_insert_ne s.handlers m h m2 hne

theorem lookup_cond_pair (s : Server) (cond : Bool) (m1 m2 : String)
    (h1 h2 : Handler) (mq : String) (hq1 : mq ≠ m1) (hq2 : mq ≠ m2) :
    mapLookup (if cond then (s.RegisterMethod m1 h1).RegisterMethod m2 h2
               else s).handlers mq = mapLookup s.handlers mq := by
  split
  · rw [lookup_RegisterMethod_ne _ _ _ _ hq2, lookup_RegisterMethod_ne _ _ _ _ hq1]
  · rfl

theorem lookup_wired_toolsCall (r : Registry) (server : Server)
    (h : 0 < r.tools.length) :
    mapLookup ((r.RegisterHandlers server).2).handlers MethodToolsCall =
      some (Registry.handleToolsCall
        { r with capabilities := r.buildCapabilities }) := by
  have hts : ({ r with capabilities := r.buildCapabilities } :
      Registry).capabilities.tools.isSome = true := by
    simp [Registry.buildCapabilities, h]
  simp only [Registry.RegisterHandlers]
  rw [lookup_RegisterMethod_ne _ _ _ _ (by decide),
      lookup_cond_pair _ _ _ _ _ _ _ (by decide) (by decide),
      lookup_cond_pair _ _ _ _ _ _ _ (by decide) (by decide),
      if_pos hts, lookup_RegisterMethod_self]

theorem lookup_wired_resourcesRead (r : Registry) (server : Server)
    (h : 0 < r.resources.length) :
    mapLookup ((r.RegisterHandlers server).2).handlers MethodResourcesRead =
      some (Registry.handleResourcesRead
        { r with capabilities := r.buildCapabilities }) := by
  have hrs : ({ r with capabilities := r.buildCapabilities } :
      Registry).capabilities.resources.isSome = true := by
    simp [Registry.buildCapabilities, h]
  simp only [Registry.RegisterHandlers]
  rw [lookup_RegisterMethod_ne _ _ _ _ (by decide),
      lookup_cond_pair _ _ _ _ _ _ _ (by decide) (by decide),
      if_pos hrs, lookup_RegisterMethod_self]

theorem lookup_wired_promptsGet (r : Registry) (server : Server)
    (h : 0 < r.prompts.length) :
    mapLookup ((r.RegisterHandlers server).2).handlers MethodPromptsGet =
      some (Registry.handlePromptsGet
        { r with capabilities := r.buildCapabilities }) := by
  have hps : ({ r with capabilities := r.buildCapabilities } :
      Registry).capabilities.prompts.isSome = true := by
    simp [Registry.buildCapabilities, h]
  simp only [Registry.RegisterHandlers]
  rw [lookup_RegisterMethod_ne _ _ _ _ (by decide),
      if_pos hps, lookup_RegisterMethod_self]

theorem validate_eq_none (req : Request) (h1 : req.jsonrpc = "2.0")
    (h2 : ¬req.method = "") : req.Validate = none := by
  simp [Request.Validate, h1, h2]

theorem handleRequest_of_handler (s : Server) (req : Request) (h : Handler)
    (hv : req.Validate = none) (hl : mapLookup s.handlers req.method = some h) :
    s.HandleRequest req =
      (match h req.params with
       | (_, some e) => NewErrorResponse req.id e
       | (result, none) => NewSuccessResponse req.id result) := by
  unfold Server.HandleRequest
  rw [hv, hl]

theorem handleRequest_of_no_handler (s : Server) (req : Request)
    (hv : req.Validate = none) (hl : mapLookup s.handlers req.method = none) :
    s.HandleRequest req =
      NewErrorResponse req.id
        (NewMethodNotFoundError ("Method " ++ req.method ++ " not found") none) := by
  unfold Server.HandleRequest
  rw [hv, hl]

theorem handleRequest_id (s : Server) (req : Request) :
    (s.HandleRequest req).id = req.id := by
  unfold Server.HandleRequest
  cases req.Validate with
  | some e => rfl
  | none =>
      cases mapLookup s.handlers req.method with
      | none => rfl
      | some h =>
          rcases hh : h req.params with ⟨result, err⟩
          simp only [hh]
          cases err <;> rfl

theorem length_eq_dedup_of_nodup_of_mem {l1 l2 : List String} (h1 : l1.Nodup)
    (hm : ∀ a, a ∈ l1 ↔ a ∈ l2) : l1.length = l2.dedup.length := by
  have hperm := (List.perm_ext_iff_of_nodup h1 (List.nodup_dedup l2)).2
    (fun a => by rw [hm a, List.mem_dedup])
  exact hperm.length_eq

/-! ## Claims -/

/-- Claim C2: a notification (nil id) produces no output line from the
transport loop even though it is dispatched, while a request with a
non-null id produces exactly one response line carrying that same id. -/
theorem notification_silent_request_answered (s : Server) (req : Request) :
    (req.IsNotification = true → s.serveLine (Line.parsed req) = []) ∧
    (req.IsNotification = false →
      s.serveLine (Line.parsed req) = [s.HandleRequest req] ∧
      (s.HandleRequest req).id = req.id) := by
  constructor
  · intro h
    simp [Server.serveLine, h]
  · intro h
    exact ⟨by simp [Server.serveLine, h], handleRequest_id s req⟩

/-- Witness for C2 at a concrete notification and a concrete request. -/
theorem notification_silent_request_answered_witness :
    (NewServer.serveLine
      (Line.parsed ⟨"2.0", "notifications/initialized", none, none⟩) = []) ∧
    (NewServer.serveLine (Line.parsed ⟨"2.0", "ping", none, some (Json.num 1)⟩) =
        [NewServer.HandleRequest ⟨"2.0", "ping", none, some (Json.num 1)⟩] ∧
      (NewServer.HandleRequest ⟨"2.0", "ping", none, some (Json.num 1)⟩).id =
        some (Json.num 1)) :=
  ⟨(notification_silent_request_answered NewServer
      ⟨"2.0", "notifications/initialized", none, none⟩).1 rfl,
   (notification_silent_request_answered NewServer
      ⟨"2.0", "ping", none, some (Json.num 1)⟩).2 rfl⟩

/-- Claim C3: a line that fails JSON decoding yields exactly one ParseError
(-32700) response with nil id and no result, and the loop goes on to
process the remaining lines. -/
theorem malformed_line_parse_error (s : Server) (errText : String)
    (rest : List Line) :
    ∃ resp : Response,
      s.serveLine (Line.malformed errText) = [resp] ∧
      resp.id = none ∧ resp.result = none ∧
      (∃ e, resp.error = some e ∧ e.code = -32700) ∧
      s.ServeStdio (Line.malformed errText :: rest) = resp :: s.ServeStdio rest := by
  refine ⟨NewErrorResponse none
      (NewParseError "Failed to unmarshal request" (some (Json.str errText))),
    rfl, rfl, rfl, ⟨_, rfl, rfl⟩, ?_⟩
  simp [Server.ServeStdio, Server.serveLine]

/-- Claim C6: the capability set built at wiring time advertises tools,
resources and prompts exactly when the respective store is non-empty, and
always advertises logging; `RegisterHandlers` installs exactly this set. -/
theorem capabilities_present_iff_nonempty (r : Registry) :
    ((r.buildCapabilities).tools.isSome = true ↔ 0 < r.tools.length) ∧
    ((r.buildCapabilities).resources.isSome = true ↔ 0 < r.resources.length) ∧
    ((r.buildCapabilities).prompts.isSome = true ↔ 0 < r.prompts.length) ∧
    (r.buildCapabilities).logging.isSome = true ∧
    ∀ s : Server, ((r.RegisterHandlers s).1).capabilities = r.buildCapabilities := by
  refine ⟨?_, ?_, ?_, rfl, fun s => rfl⟩ <;>
    · simp only [Registry.buildCapabilities]
      split <;> simp_all

/-- Claim C7: a well-formed request (version "2.0", non-empty method,
non-null id) whose method has no registered handler gets an error response
with code -32601 carrying the same id. -/
theorem unknown_method_returns_methodNotFound (s : Server) (req : Request)
    (v : Json) (h1 : req.jsonrpc = "2.0") (h2 : req.method ≠ "")
    (h3 : mapLookup s.handlers req.method = none) (h4 : req.id = some v) :
    (s.HandleRequest req).result = none ∧ (s.HandleRequest req).id = some v ∧
    ∃ e, (s.HandleRequest req).error = some e ∧ e.code = -32601 := by
  have hr := handleRequest_of_no_handler s req (validate_eq_none req h1 h2) h3
  rw [hr]
  exact ⟨rfl, h4, _, rfl, rfl⟩

/-- Witness for C7: the spec's end-to-end scenario, method "nope" with
id 2 against a server with no methods registered. -/
theorem unknown_method_returns_methodNotFound_witness :
    (NewServer.HandleRequest ⟨"2.0", "nope", none, some (Json.num 2)⟩).result =
      none ∧
    (NewServer.HandleRequest ⟨"2.0", "nope", none, some (Json.num 2)⟩).id =
      some (Json.num 2) ∧
    ∃ e, (NewServer.HandleRequest ⟨"2.0", "nope", none, some (Json.num 2)⟩).error =
      some e ∧ e.code = -32601 :=
  unknown_method_returns_methodNotFound NewServer
    ⟨"2.0", "nope", none, some (Json.num 2)⟩ (Json.num 2) rfl (by decide) rfl rfl

/-- Claim C1: when a registered tool's handler fails, a `tools/call`
request for it through the wired server yields a successful response (no
JSON-RPC error) whose result is the marshalled tool-call result with
`isError` set and whose content contains a text block carrying the
failure's message text.  (`RegisterTool` guarantees both a non-empty tool
store, hence the wiring hypothesis, and the handler binding.) -/
theorem toolsCall_handler_failure_in_band (r : Registry) (server : Server)
    (params rid : Option Json) (T : String) (args : List (String × Json))
    (th : ToolHandler) (res : Option ToolCallResult) (msg : String)
    (hw : 0 < r.tools.length)
    (hp : parseToolCallParams params = some ⟨T, args⟩)
    (hm : mapLookup r.toolHandlers T = some th)
    (hf : th args = (res, some msg)) :
    ((r.RegisterHandlers server).2).HandleRequest
        ⟨"2.0", MethodToolsCall, params, rid⟩ =
      NewSuccessResponse rid (some (encodeToolCallResult
        { content := [NewTextContent msg], isError := true })) ∧
    (NewSuccessResponse rid (some (encodeToolCallResult
        { content := [NewTextContent msg], isError := true }))).error = none ∧
    ({ content := [NewTextContent msg], isError := true } : ToolCallResult).isError =
      true ∧
    NewTextContent msg ∈
      ({ content := [NewTextContent msg], isError := true } : ToolCallResult).content ∧
    (NewTextContent msg).text = msg ∧ (NewTextContent msg).type = "text" := by
  refine ⟨?_, rfl, rfl, List.mem_singleton.mpr rfl, rfl, rfl⟩
  have hv : (⟨"2.0", MethodToolsCall, params, rid⟩ : Request).Validate = none :=
    validate_eq_none _ rfl (show ¬MethodToolsCall = "" by decide)
  have hr := handleRequest_of_handler _ _ _ hv (lookup_wired_toolsCall r server hw)
  rw [hr]
  simp only [Registry.handleToolsCall, hp, hm, hf]

/-- Witness for C1: the demo registry's failing "ping" tool. -/
theorem toolsCall_handler_failure_in_band_witness :
    ((demoRegistry.RegisterHandlers NewServer).2).HandleRequest
        ⟨"2.0", MethodToolsCall,
          some (Json.obj [("name", Json.str "ping")]), some (Json.num 1)⟩ =
      NewSuccessResponse (some (Json.num 1)) (some (encodeToolCallResult
        { content := [NewTextContent "boom"], isError := true })) ∧
    (NewSuccessResponse (some (Json.num 1)) (some (encodeToolCallResult
        { content := [NewTextContent "boom"], isError := true }))).error = none ∧
    ({ content := [NewTextContent "boom"], isError := true } :
      ToolCallResult).isError = true ∧
    NewTextContent "boom" ∈
      ({ content := [NewTextContent "boom"], isError := true } :
        ToolCallResult).content ∧
    (NewTextContent "boom").text = "boom" ∧ (NewTextContent "boom").type = "text" :=
  toolsCall_handler_failure_in_band demoRegistry NewServer
    (some (Json.obj [("name", Json.str "ping")])) (some (Json.num 1)) "ping" []
    demoFailToolHandler none "boom" (by decide) rfl rfl rfl

/-- Claim C5: a `tools/call` whose params parse but whose name has no
registered handler (with the method wired because at least one tool is
registered) yields an InvalidParams (-32602) error, which is neither an
InternalError nor a success. -/
theorem toolsCall_unknown_tool_invalidParams (r : Registry) (server : Server)
    (params rid : Option Json) (T : String) (args : List (String × Json))
    (hw : 0 < r.tools.length)
    (hp : parseToolCallParams params = some ⟨T, args⟩)
    (hm : mapLookup r.toolHandlers T = none) :
    ((r.RegisterHandlers server).2).HandleRequest
        ⟨"2.0", MethodToolsCall, params, rid⟩ =
      NewErrorResponse rid
        (NewInvalidParamsError ("Tool " ++ T ++ " not found") none) ∧
    (NewInvalidParamsError ("Tool " ++ T ++ " not found") none).code = -32602 ∧
    (NewInvalidParamsError ("Tool " ++ T ++ " not found") none).code ≠ -32603 ∧
    (NewErrorResponse rid
      (NewInvalidParamsError ("Tool " ++ T ++ " not found") none)).result = none := by
  refine ⟨?_, rfl, show (-32602 : Int) ≠ -32603 by decide, rfl⟩
  have hv : (⟨"2.0", MethodToolsCall, params, rid⟩ : Request).Validate = none :=
    validate_eq_none _ rfl (show ¬MethodToolsCall = "" by decide)
  have hr := handleRequest_of_handler _ _ _ hv (lookup_wired_toolsCall r server hw)
  rw [hr]
  simp only [Registry.handleToolsCall, hp, hm]

/-- Witness for C5: calling the unregistered tool "nosuch" on the demo
registry. -/
theorem toolsCall_unknown_tool_invalidParams_witness :
    ((demoRegistry.RegisterHandlers NewServer).2).HandleRequest
        ⟨"2.0", MethodToolsCall,
          some (Json.obj [("name", Json.str "nosuch")]), some (Json.num 3)⟩ =
      NewErrorResponse (some (Json.num 3))
        (NewInvalidParamsError ("Tool " ++ "nosuch" ++ " not found") none) ∧
    (NewInvalidParamsError ("Tool " ++ "nosuch" ++ " not found") none).code =
      -32602 ∧
    (NewInvalidParamsError ("Tool " ++ "nosuch" ++ " not found") none).code ≠
      -32603 ∧
    (NewErrorResponse (some (Json.num 3))
      (NewInvalidParamsError ("Tool " ++ "nosuch" ++ " not found") none)).result =
      none :=
  toolsCall_unknown_tool_invalidParams demoRegistry NewServer
    (some (Json.obj [("name", Json.str "nosuch")])) (some (Json.num 3)) "nosuch" []
    (by decide) rfl rfl

/-- Claim C4: a registered resource or prompt whose handler fails turns the
`resources/read` / `prompts/get` request into a JSON-RPC InternalError
(-32603) response, never a success. -/
theorem resource_prompt_failure_internalError (r : Registry) (server : Server) :
    (∀ (params rid : Option Json) (U : String) (rh : ResourceHandler)
        (res : Option ReadResourceResult) (msg : String),
      0 < r.resources.length →
      parseReadResourceParams params = some ⟨U⟩ →
      mapLookup r.resourceHandlers U = some rh →
      rh U = (res, some msg) →
      ((r.RegisterHandlers server).2).HandleRequest
          ⟨"2.0", MethodResourcesRead, params, rid⟩ =
        NewErrorResponse rid
          (NewInternalError "Failed to read resource" (some (Json.str msg))) ∧
      (NewInternalError "Failed to read resource" (some (Json.str msg))).code =
        -32603 ∧
      (NewErrorResponse rid (NewInternalError "Failed to read resource"
        (some (Json.str msg)))).result = none) ∧
    (∀ (params rid : Option Json) (P : String) (args : List (String × String))
        (ph : PromptHandler) (res : Option GetPromptResult) (msg : String),
      0 < r.prompts.length →
      parseGetPromptParams params = some ⟨P, args⟩ →
      mapLookup r.promptHandlers P = some ph →
      ph args = (res, some msg) →
      ((r.RegisterHandlers server).2).HandleRequest
          ⟨"2.0", MethodPromptsGet, params, rid⟩ =
        NewErrorResponse rid
          (NewInternalError "Failed to get prompt" (some (Json.str msg))) ∧
      (NewInternalError "Failed to get prompt" (some (Json.str msg))).code =
        -32603 ∧
      (NewErrorResponse rid (NewInternalError "Failed to get prompt"
        (some (Json.str msg)))).result = none) := by
  constructor
  · intro params rid U rh res msg hw hp hm hf
    refine ⟨?_, rfl, rfl⟩
    have hv : (⟨"2.0", MethodResourcesRead, params, rid⟩ : Request).Validate = none :=
      validate_eq_none _ rfl (show ¬MethodResourcesRead = "" by decide)
    have hr := handleRequest_of_handler _ _ _ hv
      (lookup_wired_resourcesRead r server hw)
    rw [hr]
    simp only [Registry.handleResourcesRead, hp, hm, hf]
  · intro params rid P args ph res msg hw hp hm hf
    refine ⟨?_, rfl, rfl⟩
    have hv : (⟨"2.0", MethodPromptsGet, params, rid⟩ : Request).Validate = none :=
      validate_eq_none _ rfl (show ¬MethodPromptsGet = "" by decide)
    have hr := handleRequest_of_handler _ _ _ hv
      (lookup_wired_promptsGet r server hw)
    rw [hr]
    simp only [Registry.handlePromptsGet, hp, hm, hf]

/-- Witness for C4: the demo registry's failing resource and prompt. -/
theorem resource_prompt_failure_internalError_witness :
    (((demoRegistry.RegisterHandlers NewServer).2).HandleRequest
        ⟨"2.0", MethodResourcesRead,
          some (Json.obj [("uri", Json.str "store://catalog")]),
          some (Json.num 4)⟩ =
      NewErrorResponse (some (Json.num 4))
        (NewInternalError "Failed to read resource" (some (Json.str "down")))) ∧
    (((demoRegistry.RegisterHandlers NewServer).2).HandleRequest
        ⟨"2.0", MethodPromptsGet,
          some (Json.obj [("name", Json.str "greet")]), some (Json.num 5)⟩ =
      NewErrorResponse (some (Json.num 5))
        (NewInternalError "Failed to get prompt" (some (Json.str "offline")))) :=
  ⟨((resource_prompt_failure_internalError demoRegistry NewServer).1
      (some (Json.obj [("uri", Json.str "store://catalog")])) (some (Json.num 4))
      "store://catalog" demoFailResourceHandler none "down"
      (by decide) rfl rfl rfl).1,
   ((resource_prompt_failure_internalError demoRegistry NewServer).2
      (some (Json.obj [("name", Json.str "greet")])) (some (Json.num 5))
      "greet" [] demoFailPromptHandler none "offline"
      (by decide) rfl rfl rfl).1⟩

/-- Claim C8: after any startup registration sequence, `tools/list`
returns exactly one entry per distinct registered tool name, with the name
set equal to the set of registered names; likewise `resources/list` over
URIs and `prompts/list` over prompt names. -/
theorem lists_return_registered_entries (info : ClientInfo) (instr : String)
    (es : List RegEvent) (params : Option Json) :
    (∃ ts : List Tool,
      (applyEvents (NewRegistry info instr) es).handleToolsList params =
        (some (encodeToolListResult { tools := ts, nextCursor := none }), none) ∧
      ts.length = (toolNames es).dedup.length ∧
      ∀ n, n ∈ ts.map Tool.name ↔ n ∈ toolNames es) ∧
    (∃ rs : List Resource,
      (applyEvents (NewRegistry info instr) es).handleResourcesList params =
        (some (encodeListResourcesResult { resources := rs }), none) ∧
      rs.length = (resourceUris es).dedup.length ∧
      ∀ n, n ∈ rs.map Resource.uri ↔ n ∈ resourceUris es) ∧
    (∃ ps : List Prompt,
      (applyEvents (NewRegistry info instr) es).handlePromptsList params =
        (some (encodeListPromptsResult { prompts := ps }), none) ∧
      ps.length = (promptNames es).dedup.length ∧
      ∀ n, n ∈ ps.map Prompt.name ↔ n ∈ promptNames es) := by
  have hbase : ∀ n : String,
      (n ∈ mapKeys (NewRegistry info instr).tools ↔ False) ∧
      (n ∈ mapKeys (NewRegistry info instr).resources ↔ False) ∧
      (n ∈ mapKeys (NewRegistry info instr).prompts ↔ False) := by
    intro n
    simp [NewRegistry, mapKeys]
  refine ⟨⟨mapValues (applyEvents (NewRegistry info instr) es).tools, rfl, ?_, ?_⟩,
          ⟨mapValues (applyEvents (NewRegistry info instr) es).resources, rfl, ?_, ?_⟩,
          ⟨mapValues (applyEvents (NewRegistry info instr) es).prompts, rfl, ?_, ?_⟩⟩
  · rw [length_mapValues, ← length_mapKeys]
    refine length_eq_dedup_of_nodup_of_mem
      (nodup_tools_applyEvents _ _ (by simp [NewRegistry, mapKeys])) ?_
    intro a
    rw [mem_tools_applyEvents]
    simp [NewRegistry, mapKeys]
  · intro n
    rw [mapValues_map_eq_mapKeys Tool.name _
          (keysMatch_tools_applyEvents _ _ (by simp [NewRegistry])),
        mem_tools_applyEvents]
    simp [NewRegistry, mapKeys]
  · rw [length_mapValues, ← length_mapKeys]
    refine length_eq_dedup_of_nodup_of_mem
      (nodup_resources_applyEvents _ _ (by simp [NewRegistry, mapKeys])) ?_
    intro a
    rw [mem_resources_applyEvents]
    simp [NewRegistry, mapKeys]
  · intro n
    rw [mapValues_map_eq_mapKeys Resource.uri _
          (keysMatch_resources_applyEvents _ _ (by simp [NewRegistry])),
        mem_resources_applyEvents]
    simp [NewRegistry, mapKeys]
  · rw [length_mapValues, ← length_mapKeys]
    refine length_eq_dedup_of_nodup_of_mem
      (nodup_prompts_applyEvents _ _ (by simp [NewRegistry, mapKeys])) ?_
    intro a
    rw [mem_prompts_applyEvents]
    simp [NewRegistry, mapKeys]
  · intro n
    rw [mapValues_map_eq_mapKeys Prompt.name _
          (keysMatch_prompts_applyEvents _ _ (by simp [NewRegistry])),
        mem_prompts_applyEvents]
    simp [NewRegistry, mapKeys]

/-- Claim C10: every reachable registry state (any startup registration
sequence applied to the fresh registry) has equal key sets between each
metadata store and its handler store, with duplicate-free keys, so every
listed tool name has exactly one handler. -/
theorem registry_store_handler_key_invariant (info : ClientInfo) (instr : String)
    (es : List RegEvent) :
    mapKeys (applyEvents (NewRegistry info instr) es).tools =
      mapKeys (applyEvents (NewRegistry info instr) es).toolHandlers ∧
    mapKeys (applyEvents (NewRegistry info instr) es).resources =
      mapKeys (applyEvents (NewRegistry info instr) es).resourceHandlers ∧
    mapKeys (applyEvents (NewRegistry info instr) es).prompts =
      mapKeys (applyEvents (NewRegistry info instr) es).promptHandlers ∧
    (mapKeys (applyEvents (NewRegistry info instr) es).toolHandlers).Nodup ∧
    ∀ n ∈ mapKeys (applyEvents (NewRegistry info instr) es).tools,
      (mapLookup (applyEvents (NewRegistry info instr) es).toolHandlers n).isSome =
        true := by
  have ht := keysEq_tools_applyEvents (NewRegistry info instr) es rfl
  refine ⟨ht, keysEq_resources_applyEvents _ _ rfl,
          keysEq_prompts_applyEvents _ _ rfl, ?_, ?_⟩
  · rw [← ht]
    exact nodup_tools_applyEvents _ _ (by simp [NewRegistry, mapKeys])
  · intro n hn
    rw [mapLookup_isSome_iff, ← ht]
    exact hn

/-- Witness for C10: the invariant's lookup consequence at a concrete
reachable registry. -/
theorem registry_store_handler_key_invariant_witness :
    (mapLookup (applyEvents (NewRegistry { name := "store", version := "1" } "")
      [RegEvent.tool demoTool demoFailToolHandler]).toolHandlers "ping").isSome =
      true :=
  (registry_store_handler_key_invariant { name := "store", version := "1" } ""
    [RegEvent.tool demoTool demoFailToolHandler]).2.2.2.2 "ping" (by decide)

/-- Claim C9: for every valid Response (result-only or error-only, the
error with or without a data payload), marshalling to its output line and
unmarshalling that line back yields the original value. -/
theorem response_encode_decode_roundtrip (r : Response) (hval : validResponse r) :
    decodeResponse (encodeResponse r) = some r := by
  unfold validResponse at hval
  obtain ⟨jr, res, err, rid⟩ := r
  obtain ⟨-, hres, hid, herr⟩ := hval
  cases res with
  | none =>
      cases err with
      | none =>
          cases rid with
          | none =>
              simp [encodeResponse, decodeResponse, getField, parseString, denull]
          | some w =>
              have hw : w.isNull = false := hid w rfl
              simp [encodeResponse, decodeResponse, getField, parseString, denull, hw]
      | some e =>
          obtain ⟨c, m, dat⟩ := e
          cases dat with
          | none =>
              cases rid with
              | none =>
                  simp [encodeResponse, decodeResponse, encodeError, decodeError,
                    getField, parseString, denull]
              | some w =>
                  have hw : w.isNull = false := hid w rfl
                  simp [encodeResponse, decodeResponse, encodeError, decodeError,
                    getField, parseString, denull, hw]
          | some d =>
              have hd : d.isNull = false := herr ⟨c, m, some d⟩ rfl d rfl
              cases rid with
              | none =>
                  simp [encodeResponse, decodeResponse, encodeError, decodeError,
                    getField, parseString, denull, hd]
              | some w =>
                  have hw : w.isNull = false := hid w rfl
                  simp [encodeResponse, decodeResponse, encodeError, decodeError,
                    getField, parseString, denull, hd, hw]
  | some v =>
      have hv : v.isNull = false := hres v rfl
      cases err with
      | none =>
          cases rid with
          | none =>
              simp [encodeResponse, decodeResponse, getField, parseString, denull, hv]
          | some w =>
              have hw : w.isNull = false := hid w rfl
              simp [encodeResponse, decodeResponse, getField, parseString, denull,
                hv, hw]
      | some e =>
          obtain ⟨c, m, dat⟩ := e
          cases dat with
          | none =>
              cases rid with
              | none =>
                  simp [encodeResponse, decodeResponse, encodeError, decodeError,
                    getField, parseString, denull, hv]
              | some w =>
                  have hw : w.isNull = false := hid w rfl
                  simp [encodeResponse, decodeResponse, encodeError, decodeError,
                    getField, parseString, denull, hv, hw]
          | some d =>
              have hd : d.isNull = false := herr ⟨c, m, some d⟩ rfl d rfl
              cases rid with
              | none =>
                  simp [encodeResponse, decodeResponse, encodeError, decodeError,
                    getField, parseString, denull, hv, hd]
              | some w =>
                  have hw : w.isNull = false := hid w rfl
                  simp [encodeResponse, decodeResponse, encodeError, decodeError,
                    getField, parseString, denull, hv, hd, hw]

/-- Witness for C9: an error-only response with a data payload and a
numeric id round-trips. -/
theorem response_encode_decode_roundtrip_witness :
    decodeResponse (encodeResponse
      ⟨"2.0", none, some ⟨-32601, "nope", some (Json.str "x")⟩,
        some (Json.num 7)⟩) =
      some ⟨"2.0", none, some ⟨-32601, "nope", some (Json.str "x")⟩,
        some (Json.num 7)⟩ :=
  response_encode_decode_roundtrip
    ⟨"2.0", none, some ⟨-32601, "nope", some (Json.str "x")⟩, some (Json.num 7)⟩
    (by simp [validResponse, Json.isNull])

end MCPStore
